import Mathlib

/-!
Verification of the TTS-1M-Scraping ingestion pipeline.

The repository contains two parallel pipelines:
  - YouTubeMetadataExtractor.py (modelled in namespace YTME),
  - vdata.py (modelled in namespace Vdata),
plus deduplication.py (modelled at top level).

External effects are made explicit: the remote API is a parameter
(a schedule of call outcomes, or an oracle from batch/attempt indices
to results), the filesystem is an optional in-memory store, and
process exit (Python exit(1) or an unhandled exception) is the `none`
result of an `Option` codomain.  Machine-level details (pandas frames,
CSV bytes) are modelled as lists of records, keeping only the
structure the pipeline logic depends on.
-/

set_option autoImplicit false
set_option maxRecDepth 10000

/-! ### Characters and digit strings -/

/-- Decides the regex character class of decimal digits. -/
def isDigitChar (c : Char) : Bool :=
  ('0' ≤ c && c ≤ '9')

/-- Numeric value of a single decimal digit character. -/
def digitVal (c : Char) : Nat := c.toNat - 48

/-- Value denoted by a big-endian list of decimal digit characters. -/
def digitsVal (ds : List Char) : Nat :=
  ds.foldl (fun acc c => 10 * acc + digitVal c) 0

/-- Greedy span of leading digits, mirroring how a greedy regex group
matches a maximal run of digit characters. -/
def spanD : List Char → List Char × List Char
  | [] => ([], [])
  | c :: cs =>
    if isDigitChar c then
      let p := spanD cs
      (c :: p.1, p.2)
    else ([], c :: cs)

/-- True when the list does not begin with a decimal digit. -/
def notDigitStart : List Char → Bool
  | [] => true
  | c :: _ => !(isDigitChar c)

/-- Regex character class of the patterns capturing ids in the sources:
letters, digits, underscore and hyphen. -/
def isIdChar (c : Char) : Bool :=
  ('a' ≤ c && c ≤ 'z') || ('A' ≤ c && c ≤ 'Z') ||
  ('0' ≤ c && c ≤ '9') || c == '_' || c == '-'

/-! ### Regex search with one capturing group

All four regexes in vdata.py extract_identifier, and the two capture
regexes of YouTubeMetadataExtractor.py, have the shape
literal-alternation followed by a greedy one-or-more character class
group.  re.search semantics: scan left to right for the first position
where the whole pattern matches; alternatives are tried in order at
each position; the group match must be nonempty. -/

/-- Tries each literal alternative at the current position; on a hit,
captures the maximal nonempty run of characters accepted by keep. -/
def tryAt (pats : List (List Char)) (keep : Char → Bool) (s : List Char) :
    Option (List Char) :=
  match pats with
  | [] => none
  | pat :: rest =>
    if pat.isPrefixOf s then
      let cap := (s.drop pat.length).takeWhile keep
      if cap.isEmpty then tryAt rest keep s else some cap
    else tryAt rest keep s

/-- Leftmost regex search over the whole string. -/
def searchCapture (pats : List (List Char)) (keep : Char → Bool) :
    List Char → Option (List Char)
  | [] => none
  | c :: cs =>
    match tryAt pats keep (c :: cs) with
    | some cap => some cap
    | none => searchCapture pats keep cs

/-- Substring containment, modelling the Python `in` operator on str. -/
def containsSub (pat : List Char) : List Char → Bool
  | [] => pat.isEmpty
  | c :: cs => pat.isPrefixOf (c :: cs) || containsSub pat cs

/-- Splits on a separator character, modelling str.split(sep) for a
one-character separator (an empty input yields one empty field). -/
def splitOnChar (sep : Char) (s : List Char) : List (List Char) :=
  s.foldr
    (fun c acc =>
      match acc with
      | [] => [[c]]
      | a :: rest => if c = sep then [] :: a :: rest else (c :: a) :: rest)
    [[]]

/-- Suffix after the last occurrence of pat, modelling
str.split(pat)[-1]; when pat does not occur the whole string is
returned, as Python split then yields the one-element list. -/
def afterLastSubAux (pat : List Char) : List Char → List Char → List Char
  | [], best => best
  | c :: cs, best =>
    afterLastSubAux pat cs
      (if pat.isPrefixOf (c :: cs) then (c :: cs).drop pat.length else best)

/-- Entry point for afterLastSubAux: the default is the whole string. -/
def afterLastSub (pat s : List Char) : List Char :=
  afterLastSubAux pat s s

/-! ### Data model -/

/-- Tag of a classified URL, the type strings of the sources. -/
inductive UrlType where
  | video
  | playlist
  | channel_id
  | handle
deriving DecidableEq, Repr

/-- One row of the durable video store, with the columns written by
both pipelines (Video ID, Title, Channel ID, Author, Description,
Category, Topics, Length (Seconds), Published, Audio Language, Views,
Tags). -/
structure VideoRecord where
  videoID : String
  title : String
  channelID : String
  author : String
  description : String
  category : String
  topics : List String
  lengthSeconds : Nat
  published : String
  audioLanguage : String
  views : String
  tags : List String
deriving DecidableEq, Repr

/-- Record with a given Video ID and empty remaining fields, used to
build concrete stores in closed statements. -/
def sampleRec (id : String) : VideoRecord :=
  { videoID := id, title := "", channelID := "", author := "",
    description := "", category := "", topics := [], lengthSeconds := 0,
    published := "", audioLanguage := "", views := "", tags := [] }

/-! ### ISO-8601 duration parsing (YouTubeMetadataExtractor.parse_duration)

The source matches the anchored regex
PT(?:(\d+)H)?(?:(\d+)M)?(?:(\d+)S)? with re.match (prefix match,
trailing characters ignored), then sums group values.  Each optional
group (\d+)X deterministically either consumes a maximal nonempty
digit run followed by the literal X, or consumes nothing: a shorter
digit run cannot help, because the character after any shorter run is
again a digit, never the letter X. -/

/-- One optional regex group (\d+)X: on success returns the group
value and the remaining input past X, otherwise leaves the input
untouched. -/
def matchNumSuffix (suffix : Char) (cs : List Char) : Option Nat × List Char :=
  match spanD cs with
  | (ds, rest) =>
    match ds, rest with
    | [], _ => (none, cs)
    | _ :: _, [] => (none, cs)
    | _ :: _, c :: rest2 =>
      if c = suffix then (some (digitsVal ds), rest2) else (none, cs)

/-- Sum of the three optional H, M, S groups applied in order after
the literal PT. -/
def matchDurationGroups (cs : List Char) : Nat :=
  let h := matchNumSuffix 'H' cs
  let m := matchNumSuffix 'M' h.2
  let s := matchNumSuffix 'S' m.2
  (h.1.getD 0) * 3600 + (m.1.getD 0) * 60 + (s.1.getD 0)

/-- Core of parse_duration on the character list of the input: the
regex fails exactly when the string does not start with PT, and the
failure branch returns 0. -/
def parseDurationChars : List Char → Nat
  | 'P' :: 'T' :: rest => matchDurationGroups rest
  | _ => 0

/-- True when the list starts with the literal PT. -/
def startsPT : List Char → Bool
  | 'P' :: 'T' :: _ => true
  | _ => false

/-! ### Families of duration strings

These definitions describe the claim's input family (valid PT#H#M#S
strings with an optional trailing remainder); they are the
quantification domain, not part of the embedded code. -/

/-- Renders one optional component: its digits followed by its unit
letter, or nothing when omitted. -/
def optComp (letter : Char) : Option (List Char) → List Char
  | none => []
  | some ds => ds ++ [letter]

/-- Body of a duration string after the literal PT, followed by an
arbitrary remainder. -/
def durBody (h m s : Option (List Char)) (rest : List Char) : List Char :=
  optComp 'H' h ++ (optComp 'M' m ++ (optComp 'S' s ++ rest))

/-- Full duration string PT followed by the selected components and a
remainder. -/
def durString (h m s : Option (List Char)) (rest : List Char) : String :=
  String.mk ('P' :: 'T' :: durBody h m s rest)

/-- Well-formedness of one optional component: if present, a nonempty
run of decimal digits. -/
def goodComp : Option (List Char) → Bool
  | none => true
  | some ds => !ds.isEmpty && ds.all isDigitChar

/-- Value contributed by one optional component. -/
def compVal : Option (List Char) → Nat
  | none => 0
  | some ds => digitsVal ds

/-- A string is a valid PT#H#M#S duration when it is exactly PT
followed by some subset of well-formed H, M, S components and nothing
else. -/
def isValidDurationString (str : String) : Prop :=
  ∃ h m s, goodComp h = true ∧ goodComp m = true ∧ goodComp s = true ∧
    str = durString h m s []

/-! ### Batching -/

/-- Fixed-size batching of a list, modelling the slicing loops
for i in range(0, len(ids), 50): ids[i:i+50] of both pipelines. -/
def chunks50 {α : Type} : List α → List (List α)
  | [] => []
  | a :: l => ((a :: l).take 50) :: chunks50 ((a :: l).drop 50)
termination_by l => l.length
decreasing_by simp [List.length_drop]; omega

/-! ### Consolidation (deduplication.py deduplicate_dataframe and
YouTubeMetadataExtractor.deduplicate_metadata)

Both call pandas drop_duplicates on the Video ID column with
keep equal to first: a row is retained iff its Video ID has not
occurred earlier. -/

/-- Accumulator pass of drop_duplicates: seen holds the Video IDs of
rows already retained. -/
def dropDupFirstAux (seen : List String) : List VideoRecord → List VideoRecord
  | [] => []
  | r :: rs =>
    if r.videoID ∈ seen then dropDupFirstAux seen rs
    else r :: dropDupFirstAux (r.videoID :: seen) rs

/-- drop_duplicates(subset = Video ID, keep = first) on a store. -/
def deduplicate_dataframe (rows : List VideoRecord) : List VideoRecord :=
  dropDupFirstAux [] rows

/-! ### Outcome of one remote API call during playlist traversal -/

/-- Outcome of one playlistItems request: success, HTTP 403 with
quotaExceeded, or any other error. -/
inductive CallOutcome where
  | ok
  | quota
  | err
deriving DecidableEq, Repr

namespace YTME

/-! Model of YouTubeMetadataExtractor.py.  The credential pool has
numKeys entries; the cursor is current_key_index.  exit(1) is the
none result. -/

/-- switch_api_key: advance the cursor cyclically; when it wraps to 0
print the exhaustion message and exit(1), modelled as none. -/
def switch_api_key (numKeys idx : Nat) : Option Nat :=
  let idx2 := (idx + 1) % numKeys
  if idx2 = 0 then none else some idx2

/-- Runs k consecutive quota-exceeded responses through
switch_api_key, threading the cursor; none once the pool is
exhausted. -/
def consume_quota (numKeys : Nat) : Nat → Nat → Option Nat
  | 0, idx => some idx
  | Nat.succ k, idx =>
    match switch_api_key numKeys idx with
    | none => none
    | some idx2 => consume_quota numKeys k idx2

/-- parse_video_url: a youtu.be link takes the last slash-separated
field; otherwise the regex [?&]v=([a-zA-Z0-9_-]+) is searched. -/
def parse_video_url (url : String) : Option (UrlType × String) :=
  let u := url.toList
  if containsSub ("youtu.be".toList) u then
    some (UrlType.video, String.mk ((splitOnChar '/' u).getLastD []))
  else
    match searchCapture [("?v=".toList), ("&v=".toList)] isIdChar u with
    | some cap => some (UrlType.video, String.mk cap)
    | none => none

/-- parse_playlist_url: the regex list=([a-zA-Z0-9_-]+). -/
def parse_playlist_url (url : String) : Option (UrlType × String) :=
  match searchCapture [("list=".toList)] isIdChar url.toList with
  | some cap => some (UrlType.playlist, String.mk cap)
  | none => none

/-- parse_channel_url: the suffix after /channel/ or after /@. -/
def parse_channel_url (url : String) : Option (UrlType × String) :=
  let u := url.toList
  if containsSub ("/channel/".toList) u then
    some (UrlType.channel_id, String.mk (afterLastSub ("/channel/".toList) u))
  else if containsSub ("/@".toList) u then
    some (UrlType.channel_id, String.mk (afterLastSub ("/@".toList) u))
  else none

/-- parse_url: substring dispatch in source order, None when no
branch applies. -/
def parse_url (url : String) : Option (UrlType × String) :=
  let u := url.toList
  if containsSub ("youtube.com/watch".toList) u ||
      containsSub ("youtu.be".toList) u then
    parse_video_url url
  else if containsSub ("youtube.com/playlist".toList) u then
    parse_playlist_url url
  else if containsSub ("youtube.com/channel".toList) u ||
      containsSub ("@".toList) u then
    parse_channel_url url
  else none

/-- parse_duration: 0 for a falsy input (None or the empty string),
otherwise the anchored regex of parseDurationChars; an empty list of
characters also falls to the 0 branch there, so the two failure paths
coincide. -/
def parse_duration : Option String → Nat
  | none => 0
  | some d => parseDurationChars d.toList

/-- One iteration state of fetch_videos_from_playlist, driven by a
schedule of call outcomes.  The server is the list pages: the request
carrying page token i is answered with the items pages[i] and a
continuation token iff a page i+1 exists.  A quota outcome rotates
the credential (which may exit), increments retries and retries the
same page token; when retries exceeds the pool size the run exits;
any other error breaks the loop returning what was collected. -/
def fetchPlaylistLoop (pages : List (List String)) (numKeys : Nat) :
    List CallOutcome → Nat → List String → Nat → Nat → Option (List String)
  | [], _, _, _, _ => none
  | CallOutcome.ok :: qs, page, acc, r, k =>
    let acc2 := acc ++ pages.getD page []
    if page + 1 < pages.length then
      fetchPlaylistLoop pages numKeys qs (page + 1) acc2 r k
    else some acc2
  | CallOutcome.quota :: qs, page, acc, r, k =>
    match switch_api_key numKeys k with
    | none => none
    | some k2 =>
      if r + 1 > numKeys then none
      else fetchPlaylistLoop pages numKeys qs page acc (r + 1) k2
  | CallOutcome.err :: _, _, acc, _, _ => some acc

/-- fetch_videos_from_playlist: the loop started with no page token,
an empty collection and zero retries, with the current cursor k. -/
def fetch_videos_from_playlist (pages : List (List String)) (numKeys : Nat)
    (sched : List CallOutcome) (k : Nat) : Option (List String) :=
  fetchPlaylistLoop pages numKeys sched 0 [] 0 k

/-- get_existing_video_ids: the set of Video ID values of the
metadata file, or the empty set when the file does not exist (the
store argument is none). -/
def get_existing_video_ids (store : Option (List VideoRecord)) : List String :=
  match store with
  | none => []
  | some rows => rows.map VideoRecord.videoID

/-- Step 2 of process_urls: list(set(all_video_ids) minus
existing_video_ids); set formation is modelled by dedup, subtraction
by a membership filter. -/
def subtract_existing (allIds existing : List String) : List String :=
  allIds.dedup.filter (fun v => decide (v ∉ existing))

end YTME

namespace Vdata

/-! Model of vdata.py.  current_key_index is module-level state,
threaded explicitly. -/

/-- switch_api_key: advance the cursor cyclically and keep running;
the function has no exhaustion branch, its codomain is the bare new
cursor. -/
def switch_api_key (numKeys idx : Nat) : Nat :=
  (idx + 1) % numKeys

/-- Runs k consecutive quota-exceeded responses through
switch_api_key; always returns a cursor, since no branch of the
source can signal exhaustion. -/
def consume_quota (numKeys : Nat) : Nat → Nat → Nat
  | 0, idx => idx
  | Nat.succ k, idx => consume_quota numKeys k (switch_api_key numKeys idx)

/-- extract_identifier: four re.search patterns computed on the URL,
then the first hit in source order playlist, video, channel, handle;
(None, None) when none matches. -/
def extract_identifier (url : String) : Option String × Option UrlType :=
  let u := url.toList
  match searchCapture [("playlist?list=".toList)] (fun c => c != '&') u with
  | some cap => (some (String.mk cap), some UrlType.playlist)
  | none =>
    match searchCapture [("watch?v=".toList), ("/v/".toList)] isIdChar u with
    | some cap => (some (String.mk cap), some UrlType.video)
    | none =>
      match searchCapture [("/channel/".toList)] (fun c => c != '/') u with
      | some cap => (some (String.mk cap), some UrlType.channel_id)
      | none =>
        match searchCapture [("@".toList)] (fun c => c != '/') u with
        | some cap => (some (String.mk cap), some UrlType.handle)
        | none => (none, none)

/-- parse_duration of vdata.py: the external isodate call is the
argument (some seconds on success, none when the library raises); the
try/except returns 0 on any exception. -/
def parse_duration (isodateResult : Option Int) : Int :=
  match isodateResult with
  | some n => n
  | none => 0

/-- check_existing_video_ids: collect the Video ID column of every
persisted store file, then keep the candidates not already present. -/
def check_existing_video_ids (files : List (List VideoRecord))
    (videoIds : List String) : List String :=
  let existing := (files.flatten).map VideoRecord.videoID
  videoIds.filter (fun v => decide (v ∉ existing))

/-- Inner retry loop of get_video_metadata for one batch: att maps
the attempt counter to the outcome of request.execute (none models a
raised exception).  The budget starts at 3; a failure decrements it
and, when budget remains, sleeps 5 seconds before the next attempt;
an exhausted budget skips the batch.  Returns the records appended
for the batch together with the number of sleeps performed. -/
def fetchBatchLoop (att : Nat → Option (List VideoRecord)) :
    Nat → Nat → List VideoRecord × Nat
  | 0, _ => ([], 0)
  | Nat.succ r, a =>
    match att a with
    | some items => (items, 0)
    | none =>
      let p := fetchBatchLoop att r (a + 1)
      if r > 0 then (p.1, p.2 + 1) else (p.1, p.2)

/-- get_video_metadata: the candidate ids are cut into batches of 50;
batch i is fetched through the retry loop with oracle i as its
attempt outcomes; the per-batch records are appended in order. -/
def get_video_metadata (oracle : Nat → Nat → Option (List VideoRecord))
    (videoIds : List String) : List VideoRecord :=
  (((chunks50 videoIds).enum).map
    (fun p => (fetchBatchLoop (oracle p.1) 3 0).1)).flatten

end Vdata

/-! ### Credential rotation -/

/-- While the cursor stays strictly inside the pool, each
quota-exceeded response advances it by exactly one without
signalling. -/
theorem YTME.consume_quota_of_lt (N : Nat) :
    ∀ (k idx : Nat), idx + k < N →
      YTME.consume_quota N k idx = some (idx + k) := by
  intro k
  induction k with
  | zero => intro idx _; simp [YTME.consume_quota]
  | succ k ih =>
    intro idx h
    have h1 : idx + 1 < N := by omega
    have hm : (idx + 1) % N = idx + 1 := Nat.mod_eq_of_lt h1
    have hne : idx + 1 ≠ 0 := by omega
    have hsw : YTME.switch_api_key N idx = some (idx + 1) := by
      simp only [YTME.switch_api_key, hm]
      exact if_neg hne
    have hrec := ih (idx + 1) (by omega)
    simp only [YTME.consume_quota, hsw, hrec]
    congr 1
    omega

/-- Splitting a run of quota-exceeded responses into two consecutive
runs. -/
theorem YTME.consume_quota_add (N : Nat) :
    ∀ (a b idx : Nat),
      YTME.consume_quota N (a + b) idx =
        match YTME.consume_quota N a idx with
        | none => none
        | some j => YTME.consume_quota N b j := by
  intro a
  induction a with
  | zero => intro b idx; simp [YTME.consume_quota]
  | succ a ih =>
    intro b idx
    have : a + 1 + b = (a + b) + 1 := by omega
    rw [this]
    simp only [YTME.consume_quota]
    cases YTME.switch_api_key N idx with
    | none => rfl
    | some j => exact ih b j

/-- In YouTubeMetadataExtractor.py, a pool of N credentials starting
at cursor 0 survives exactly N - 1 rotations; the Nth quota-exceeded
response wraps the cursor and is signalled as fatal exhaustion. -/
theorem YTME.rotation_exhaustion (N : Nat) (h : 1 ≤ N) :
    YTME.consume_quota N (N - 1) 0 = some (N - 1) ∧
      YTME.consume_quota N N 0 = none := by
  have h1 : YTME.consume_quota N (N - 1) 0 = some (N - 1) := by
    have := YTME.consume_quota_of_lt N (N - 1) 0 (by omega)
    simpa using this
  refine ⟨h1, ?_⟩
  have h2 := YTME.consume_quota_add N (N - 1) 1 0
  have hNc : N - 1 + 1 = N := by omega
  rw [hNc] at h2
  rw [h2, h1]
  simp [YTME.consume_quota, YTME.switch_api_key, hNc, Nat.mod_self]

/-- Witness for the preceding rotation lemma at a pool of three
credentials. -/
theorem YTME.rotation_exhaustion_witness :
    (1 ≤ 3) ∧ (YTME.consume_quota 3 2 0 = some 2 ∧
      YTME.consume_quota 3 3 0 = none) :=
  ⟨by decide, YTME.rotation_exhaustion 3 (by decide)⟩

/-- C1: in vdata.py, switch_api_key silently wraps the cursor back to
the start and keeps rotating forever; its codomain carries no
exhaustion signal, so a pool of 2 credentials hit by 2 (or by 100)
consecutive quota-exceeded responses is back at cursor 0 with the run
still alive, whereas the YouTubeMetadataExtractor.py rotation signals
fatal exhaustion (none) on the wrapping response. -/
theorem c1_vdata_silent_wrap :
    Vdata.switch_api_key 2 1 = 0 ∧
    Vdata.consume_quota 2 2 0 = 0 ∧
    Vdata.consume_quota 2 100 0 = 0 ∧
    YTME.consume_quota 2 2 0 = none ∧
    YTME.consume_quota 2 1 0 = some 1 := by
  refine ⟨rfl, rfl, ?_, rfl, rfl⟩
  decide

/-! ### URL classification -/

/-- C3: evaluation of the two classifiers on the claim inputs.  The
regex classifier of vdata.py handles the watch and playlist forms and
returns (None, None) on an unrelated string, but also returns
(None, None) on the youtu.be short form, against the claim; the
parse_url classifier of YouTubeMetadataExtractor.py maps all four
inputs exactly as the claim states. -/
theorem c3_classifier_eval :
    Vdata.extract_identifier "https://www.youtube.com/watch?v=abc123" =
      (some "abc123", some UrlType.video) ∧
    Vdata.extract_identifier "https://www.youtube.com/playlist?list=XYZ" =
      (some "XYZ", some UrlType.playlist) ∧
    Vdata.extract_identifier "hello world" = (none, none) ∧
    Vdata.extract_identifier "https://youtu.be/abc123" = (none, none) ∧
    YTME.parse_url "https://www.youtube.com/watch?v=abc123" =
      some (UrlType.video, "abc123") ∧
    YTME.parse_url "https://youtu.be/abc123" =
      some (UrlType.video, "abc123") ∧
    YTME.parse_url "https://www.youtube.com/playlist?list=XYZ" =
      some (UrlType.playlist, "XYZ") ∧
    YTME.parse_url "hello world" = none := by
  refine ⟨?_, ?_, ?_, ?_, ?_, ?_, ?_, ?_⟩ <;> decide

/-! ### Duration parsing lemmas -/

/-- A well-formed present component is a nonempty digit run. -/
theorem goodComp_some (ds : List Char) (hg : goodComp (some ds) = true) :
    ds ≠ [] ∧ ds.all isDigitChar = true := by
  cases ds with
  | nil => simp [goodComp] at hg
  | cons d ds' =>
    refine ⟨by simp, ?_⟩
    simpa [goodComp] using hg

/-- The greedy digit span consumes exactly a digit run followed by a
non-digit remainder. -/
theorem spanD_append (ds rest : List Char) (hds : ds.all isDigitChar = true)
    (hr : notDigitStart rest = true) : spanD (ds ++ rest) = (ds, rest) := by
  induction ds with
  | nil =>
    simp only [List.nil_append]
    cases rest with
    | nil => rfl
    | cons c cs =>
      have hc : isDigitChar c = false := by
        simpa [notDigitStart] using hr
      simp [spanD, hc]
  | cons d ds' ih =>
    simp only [List.all_cons, Bool.and_eq_true] at hds
    simp [spanD, hds.1, ih hds.2]

/-- An optional group (\d+)X matching a digit run followed by its
letter succeeds with the run's value. -/
theorem matchNumSuffix_hit (suf : Char) (ds rest : List Char)
    (hne : ds ≠ []) (hds : ds.all isDigitChar = true)
    (hsuf : isDigitChar suf = false) :
    matchNumSuffix suf (ds ++ suf :: rest) = (some (digitsVal ds), rest) := by
  have hspan : spanD (ds ++ suf :: rest) = (ds, suf :: rest) :=
    spanD_append ds (suf :: rest) hds (by simp [notDigitStart, hsuf])
  cases ds with
  | nil => exact absurd rfl hne
  | cons d ds' =>
    simp only [matchNumSuffix, hspan]
    simp

/-- An optional group (\d+)X facing a digit run followed by a
different non-digit letter consumes nothing. -/
theorem matchNumSuffix_miss (suf : Char) (ds : List Char) (c : Char)
    (rest : List Char) (hds : ds.all isDigitChar = true)
    (hc : isDigitChar c = false) (hne : c ≠ suf) :
    matchNumSuffix suf (ds ++ c :: rest) = (none, ds ++ c :: rest) := by
  have hspan : spanD (ds ++ c :: rest) = (ds, c :: rest) :=
    spanD_append ds (c :: rest) hds (by simp [notDigitStart, hc])
  cases ds with
  | nil =>
    simp only [matchNumSuffix, hspan]
  | cons d ds' =>
    simp only [matchNumSuffix, hspan]
    simp [hne]

/-- An optional group (\d+)X consumes nothing when the input does not
begin with a digit. -/
theorem matchNumSuffix_missStart (suf : Char) (cs : List Char)
    (hr : notDigitStart cs = true) :
    matchNumSuffix suf cs = (none, cs) := by
  cases cs with
  | nil => rfl
  | cons c cs' =>
    have hc : isDigitChar c = false := by
      simpa [notDigitStart] using hr
    simp [matchNumSuffix, spanD, hc]

/-- Bridge between the optional group result and the component
value. -/
theorem getD_map_digitsVal (x : Option (List Char)) :
    (Option.map digitsVal x).getD 0 = compVal x := by
  cases x <;> rfl

/-- Evaluation of the three ordered groups on a PT#H#M#S body with a
non-digit remainder: each group contributes exactly its component's
value and the remainder is ignored. -/
theorem matchDurationGroups_durBody (h m s : Option (List Char))
    (rest : List Char) (hh : goodComp h = true) (hm : goodComp m = true)
    (hs : goodComp s = true) (hr : notDigitStart rest = true) :
    matchDurationGroups (durBody h m s rest) =
      compVal h * 3600 + compVal m * 60 + compVal s := by
  have hS : matchNumSuffix 'S' (optComp 'S' s ++ rest) =
      (Option.map digitsVal s, rest) := by
    cases s with
    | none => simpa [optComp] using matchNumSuffix_missStart 'S' rest hr
    | some ds =>
      obtain ⟨h1, h2⟩ := goodComp_some ds hs
      have := matchNumSuffix_hit 'S' ds rest h1 h2 (by decide)
      simpa [optComp, List.append_assoc] using this
  have hM : matchNumSuffix 'M' (optComp 'M' m ++ (optComp 'S' s ++ rest)) =
      (Option.map digitsVal m, optComp 'S' s ++ rest) := by
    cases m with
    | some ds =>
      obtain ⟨h1, h2⟩ := goodComp_some ds hm
      have := matchNumSuffix_hit 'M' ds (optComp 'S' s ++ rest) h1 h2
        (by decide)
      simpa [optComp, List.append_assoc] using this
    | none =>
      simp only [optComp, List.nil_append]
      cases s with
      | some ds =>
        obtain ⟨h1, h2⟩ := goodComp_some ds hs
        have := matchNumSuffix_miss 'M' ds 'S' rest h2 (by decide) (by decide)
        simpa [optComp, List.append_assoc] using this
      | none =>
        simpa [optComp] using matchNumSuffix_missStart 'M' rest hr
  have hH : matchNumSuffix 'H' (durBody h m s rest) =
      (Option.map digitsVal h, optComp 'M' m ++ (optComp 'S' s ++ rest)) := by
    cases h with
    | some ds =>
      obtain ⟨h1, h2⟩ := goodComp_some ds hh
      have := matchNumSuffix_hit 'H' ds
        (optComp 'M' m ++ (optComp 'S' s ++ rest)) h1 h2 (by decide)
      simpa [durBody, optComp, List.append_assoc] using this
    | none =>
      simp only [durBody, optComp, List.nil_append]
      cases m with
      | some ds =>
        obtain ⟨h1, h2⟩ := goodComp_some ds hm
        have := matchNumSuffix_miss 'H' ds 'M' (optComp 'S' s ++ rest) h2
          (by decide) (by decide)
        simpa [optComp, List.append_assoc] using this
      | none =>
        simp only [optComp, List.nil_append]
        cases s with
        | some ds =>
          obtain ⟨h1, h2⟩ := goodComp_some ds hs
          have := matchNumSuffix_miss 'H' ds 'S' rest h2 (by decide)
            (by decide)
          simpa [optComp, List.append_assoc] using this
        | none =>
          simpa [optComp] using matchNumSuffix_missStart 'H' rest hr
  simp only [matchDurationGroups, hH, hM, hS, getD_map_digitsVal]

/-- parse_duration on a valid PT#H#M#S string followed by a non-digit
remainder returns the component sum. -/
theorem parse_duration_durString (h m s : Option (List Char))
    (rest : List Char) (hh : goodComp h = true) (hm : goodComp m = true)
    (hs : goodComp s = true) (hr : notDigitStart rest = true) :
    YTME.parse_duration (some (durString h m s rest)) =
      compVal h * 3600 + compVal m * 60 + compVal s := by
  have hlist : (durString h m s rest).toList =
      'P' :: 'T' :: durBody h m s rest := rfl
  simp only [YTME.parse_duration, hlist, parseDurationChars]
  exact matchDurationGroups_durBody h m s rest hh hm hs hr

/-- parse_duration returns 0 on every string not starting with the
literal PT, since the anchored regex fails there. -/
theorem parseDurationChars_eq_zero (l : List Char)
    (hl : startsPT l = false) : parseDurationChars l = 0 := by
  unfold parseDurationChars
  split
  · rename_i rest
    simp [startsPT] at hl
  · rfl

/-- Characters contributed by one rendered component are digits or
its unit letter. -/
theorem optComp_chars (L : Char) (x : Option (List Char))
    (hx : goodComp x = true) :
    ∀ c ∈ optComp L x, isDigitChar c = true ∨ c = L := by
  cases x with
  | none => simp [optComp]
  | some ds =>
    obtain ⟨_, h2⟩ := goodComp_some ds hx
    intro c hc
    simp only [optComp, List.mem_append, List.mem_singleton] at hc
    rcases hc with hc | hc
    · exact Or.inl (by
        have := List.all_eq_true.mp h2
        simpa using this c hc)
    · exact Or.inr hc

/-- Every character of a valid PT#H#M#S duration string is a digit or
one of the letters P, T, H, M, S. -/
theorem durString_chars (h m s : Option (List Char))
    (hh : goodComp h = true) (hm : goodComp m = true)
    (hs : goodComp s = true) :
    ∀ c ∈ (durString h m s []).toList,
      isDigitChar c = true ∨ c ∈ ['P', 'T', 'H', 'M', 'S'] := by
  intro c hc
  have hlist : (durString h m s []).toList =
      'P' :: 'T' :: durBody h m s [] := rfl
  rw [hlist] at hc
  simp only [List.mem_cons] at hc
  rcases hc with hc | hc | hc
  · subst hc; simp
  · subst hc; simp
  · simp only [durBody, List.append_nil, List.mem_append] at hc
    rcases hc with hc | hc | hc
    · rcases optComp_chars 'H' h hh c hc with h1 | h1
      · exact Or.inl h1
      · subst h1; simp
    · rcases optComp_chars 'M' m hm c hc with h1 | h1
      · exact Or.inl h1
      · subst h1; simp
    · rcases optComp_chars 'S' s hs c hc with h1 | h1
      · exact Or.inl h1
      · subst h1; simp

/-! ### Claims about duration parsing -/

/-- C7: for every valid ISO-8601 duration of the form PT#H#M#S with
any subset of the three components omitted, parse_duration returns
hours * 3600 + minutes * 60 + seconds; in particular PT1H2M3S parses
to 3723, PT45S to 45 and PT to 0. -/
theorem c7_parse_duration_valid :
    (∀ (h m s : Option (List Char)), goodComp h = true →
        goodComp m = true → goodComp s = true →
        YTME.parse_duration (some (durString h m s [])) =
          compVal h * 3600 + compVal m * 60 + compVal s) ∧
    YTME.parse_duration (some "PT1H2M3S") = 3723 ∧
    YTME.parse_duration (some "PT45S") = 45 ∧
    YTME.parse_duration (some "PT") = 0 := by
  refine ⟨?_, by decide, by decide, by decide⟩
  intro h m s hh hm hs
  exact parse_duration_durString h m s [] hh hm hs rfl

/-- Witness for C7: the general statement applied to the duration
string PT4H5S. -/
theorem c7_parse_duration_valid_witness :
    (goodComp (some ['4']) = true ∧
      goodComp (none : Option (List Char)) = true ∧
      goodComp (some ['5']) = true) ∧
    YTME.parse_duration (some (durString (some ['4']) none (some ['5']) [])) =
      compVal (some ['4']) * 3600 + compVal none * 60 + compVal (some ['5']) :=
  ⟨⟨by decide, by decide, by decide⟩,
    c7_parse_duration_valid.1 (some ['4']) none (some ['5'])
      (by decide) (by decide) (by decide)⟩

/-- C8 counterexample: the string PT1H2M3Sjunk is not a valid
PT#H#M#S duration (it contains the letter j), yet parse_duration
returns 3723 rather than the 0 the claim prescribes for malformed
input. -/
theorem c8_malformed_counterexample :
    ¬ isValidDurationString "PT1H2M3Sjunk" ∧
    YTME.parse_duration (some "PT1H2M3Sjunk") = 3723 := by
  constructor
  · rintro ⟨h, m, s, hh, hm, hs, heq⟩
    have hj : 'j' ∈ ("PT1H2M3Sjunk" : String).toList := by decide
    rw [heq] at hj
    rcases durString_chars h m s hh hm hs 'j' hj with h1 | h1
    · exact absurd h1 (by decide)
    · exact absurd h1 (by decide)
  · decide

/-- C8 amended: parse_duration is total with an error branch that
yields 0 and never propagates: None and the empty string give 0, and
every string the anchored regex rejects (not starting with PT) gives
0; in vdata.py the try/except around the external parser likewise
turns any raised exception into 0.  Strings that do start with PT
return the value of the greedily matched prefix, which can be nonzero
even for globally malformed input. -/
theorem c8_parse_duration_total_amended :
    YTME.parse_duration none = 0 ∧
    YTME.parse_duration (some "") = 0 ∧
    (∀ str : String, startsPT str.toList = false →
      YTME.parse_duration (some str) = 0) ∧
    Vdata.parse_duration none = 0 := by
  refine ⟨rfl, rfl, ?_, rfl⟩
  intro str hstr
  exact parseDurationChars_eq_zero str.toList hstr

/-- Witness for the amended C8 at the malformed string nonsense. -/
theorem c8_parse_duration_total_amended_witness :
    startsPT ("nonsense" : String).toList = false ∧
    YTME.parse_duration (some "nonsense") = 0 :=
  ⟨by decide, c8_parse_duration_total_amended.2.2.1 "nonsense" (by decide)⟩

/-- C9 counterexample: trailing characters after a valid PT#H#M#S
prefix are not always ignored: PT1H is a valid prefix of value 3600,
but with the trailing characters 2S the parser returns 3602, because
the digit-initial remainder is absorbed as a seconds component. -/
theorem c9_trailing_counterexample :
    (¬ ∀ (h m s : Option (List Char)) (rest : List Char),
        goodComp h = true → goodComp m = true → goodComp s = true →
        YTME.parse_duration (some (durString h m s rest)) =
          compVal h * 3600 + compVal m * 60 + compVal s) ∧
    durString (some ['1']) none none ['2', 'S'] = "PT1H2S" ∧
    YTME.parse_duration (some "PT1H2S") = 3602 ∧
    YTME.parse_duration (some "PT1H") = 3600 := by
  refine ⟨?_, by decide, by decide, by decide⟩
  intro hall
  have h1 := hall (some ['1']) none none ['2', 'S']
    (by decide) (by decide) (by decide)
  revert h1
  decide

/-- C9 amended: for every string consisting of a valid PT#H#M#S
prefix followed by a remainder that does not begin with a decimal
digit, the remainder is ignored and the prefix's value is returned
(in particular PT1H2M3Sjunk parses to 3723); every string not
beginning with PT returns 0. -/
theorem c9_prefix_amended :
    (∀ (h m s : Option (List Char)) (rest : List Char),
        goodComp h = true → goodComp m = true → goodComp s = true →
        notDigitStart rest = true →
        YTME.parse_duration (some (durString h m s rest)) =
          compVal h * 3600 + compVal m * 60 + compVal s) ∧
    YTME.parse_duration (some "PT1H2M3Sjunk") = 3723 ∧
    (∀ str : String, startsPT str.toList = false →
      YTME.parse_duration (some str) = 0) := by
  refine ⟨?_, by decide, ?_⟩
  · intro h m s rest hh hm hs hr
    exact parse_duration_durString h m s rest hh hm hs hr
  · intro str hstr
    exact parseDurationChars_eq_zero str.toList hstr

/-- Witness for the amended C9: the duration PT7M followed by the
non-digit remainder tail is parsed as 420. -/
theorem c9_prefix_amended_witness :
    (goodComp (none : Option (List Char)) = true ∧
      goodComp (some ['7']) = true ∧
      notDigitStart ['t', 'a', 'i', 'l'] = true) ∧
    YTME.parse_duration
        (some (durString none (some ['7']) none ['t', 'a', 'i', 'l'])) =
      compVal (none : Option (List Char)) * 3600 +
        compVal (some ['7']) * 60 + compVal (none : Option (List Char)) :=
  ⟨⟨by decide, by decide, by decide⟩,
    c9_prefix_amended.1 none (some ['7']) none ['t', 'a', 'i', 'l']
      (by decide) (by decide) (by decide) (by decide)⟩

/-! ### Playlist traversal -/

/-- Rewriting one page of the server content into the flattened
remaining content. -/
theorem getD_append_flatten (pages : List (List String)) :
    ∀ (page : Nat), page + 1 < pages.length →
      pages.getD page [] ++ ((pages.drop (page + 1)).flatten) =
        (pages.drop page).flatten := by
  induction pages with
  | nil => intro page h; simp at h
  | cons p ps ih =>
    intro page h
    cases page with
    | zero => simp
    | succ n =>
      simp only [List.length_cons] at h
      have := ih n (by omega)
      simpa [List.getD_cons_succ, List.drop_succ_cons] using this

/-- On the final page the remaining flattened content is exactly that
page's items. -/
theorem flatten_drop_of_last (pages : List (List String)) :
    ∀ (page : Nat), ¬ (page + 1 < pages.length) →
      (pages.drop page).flatten = pages.getD page [] := by
  induction pages with
  | nil => intro page _; simp
  | cons p ps ih =>
    intro page h
    cases page with
    | zero =>
      simp only [List.length_cons] at h
      have hlen : ps.length = 0 := by omega
      have hps : ps = [] := List.length_eq_zero.mp hlen
      subst hps
      simp
    | succ n =>
      simp only [List.length_cons] at h
      have := ih n (by omega)
      simpa [List.getD_cons_succ, List.drop_succ_cons] using this

/-- Invariant of the traversal loop: whenever the loop completes
without an exit and without a non-quota error, the result is the
already collected prefix followed by all remaining pages' items in
server order. -/
theorem fetchPlaylistLoop_concat (pages : List (List String))
    (numKeys : Nat) :
    ∀ (sched : List CallOutcome) (page : Nat) (acc : List String)
      (r k : Nat) (res : List String),
      CallOutcome.err ∉ sched →
      YTME.fetchPlaylistLoop pages numKeys sched page acc r k = some res →
      res = acc ++ (pages.drop page).flatten := by
  intro sched
  induction sched with
  | nil =>
    intro page acc r k res _ hrun
    simp [YTME.fetchPlaylistLoop] at hrun
  | cons o qs ih =>
    intro page acc r k res herr hrun
    have herr2 : CallOutcome.err ∉ qs :=
      fun hx => herr (List.mem_cons_of_mem _ hx)
    cases o with
    | err => exact absurd (List.mem_cons_self _ _) herr
    | ok =>
      simp only [YTME.fetchPlaylistLoop] at hrun
      by_cases hp : page + 1 < pages.length
      · rw [if_pos hp] at hrun
        have := ih (page + 1) (acc ++ pages.getD page []) r k res herr2 hrun
        rw [this, List.append_assoc, getD_append_flatten pages page hp]
      · rw [if_neg hp] at hrun
        have hres : acc ++ pages.getD page [] = res := Option.some.inj hrun
        rw [← hres, flatten_drop_of_last pages page hp]
    | quota =>
      simp only [YTME.fetchPlaylistLoop] at hrun
      cases hsw : YTME.switch_api_key numKeys k with
      | none => rw [hsw] at hrun; simp at hrun
      | some k2 =>
        rw [hsw] at hrun
        dsimp only at hrun
        by_cases hr2 : r + 1 > numKeys
        · rw [if_pos hr2] at hrun; simp at hrun
        · rw [if_neg hr2] at hrun
          exact ih page acc (r + 1) k2 res herr2 hrun

/-- C2: a quota-exceeded page fetch rotates the credential and
retries the same page token with the collected identifiers intact,
and every completed traversal returns exactly the concatenation of
all pages' items in server order, whatever quota interruptions
occurred. -/
theorem c2_playlist_traversal :
    (∀ (pages : List (List String)) (numKeys : Nat)
        (qs : List CallOutcome) (page : Nat) (acc : List String)
        (r k k2 : Nat),
        YTME.switch_api_key numKeys k = some k2 → r + 1 ≤ numKeys →
        YTME.fetchPlaylistLoop pages numKeys (CallOutcome.quota :: qs)
            page acc r k =
          YTME.fetchPlaylistLoop pages numKeys qs page acc (r + 1) k2) ∧
    (∀ (pages : List (List String)) (numKeys : Nat)
        (sched : List CallOutcome) (k : Nat) (res : List String),
        0 < numKeys → CallOutcome.err ∉ sched →
        YTME.fetch_videos_from_playlist pages numKeys sched k = some res →
        res = pages.flatten) := by
  constructor
  · intro pages numKeys qs page acc r k k2 hsw hr
    simp only [YTME.fetchPlaylistLoop, hsw]
    rw [if_neg (by omega)]
  · intro pages numKeys sched k res _ herr hrun
    have := fetchPlaylistLoop_concat pages numKeys sched 0 [] 0 k res
      herr hrun
    simpa using this

/-- Witness for C2: a two-page playlist whose second page fetch first
hits a quota error; the rotated retry yields the full concatenation. -/
theorem c2_playlist_traversal_witness :
    (YTME.switch_api_key 2 0 = some 1 ∧ (0 : Nat) + 1 ≤ 2 ∧
      YTME.fetchPlaylistLoop [["a", "b"], ["c"]] 2
          [CallOutcome.quota, CallOutcome.ok] 1 ["a", "b"] 0 0 =
        YTME.fetchPlaylistLoop [["a", "b"], ["c"]] 2 [CallOutcome.ok] 1
          ["a", "b"] 1 1) ∧
    ((0 : Nat) < 2 ∧
      CallOutcome.err ∉
        [CallOutcome.ok, CallOutcome.quota, CallOutcome.ok] ∧
      YTME.fetch_videos_from_playlist [["a", "b"], ["c"]] 2
          [CallOutcome.ok, CallOutcome.quota, CallOutcome.ok] 0 =
        some ["a", "b", "c"] ∧
      ["a", "b", "c"] = ([["a", "b"], ["c"]] : List (List String)).flatten) :=
  ⟨⟨by decide, by decide,
    c2_playlist_traversal.1 [["a", "b"], ["c"]] 2 [CallOutcome.ok] 1
      ["a", "b"] 0 0 1 (by decide) (by decide)⟩,
   ⟨by decide, by decide, by decide,
    c2_playlist_traversal.2 [["a", "b"], ["c"]] 2
      [CallOutcome.ok, CallOutcome.quota, CallOutcome.ok] 0 ["a", "b", "c"]
      (by decide) (by decide) (by decide)⟩⟩

/-! ### Consolidation -/

/-- The first-kept deduplication pass is idempotent for every seen
accumulator. -/
theorem dropDupFirstAux_idem (rows : List VideoRecord) :
    ∀ seen, dropDupFirstAux seen (dropDupFirstAux seen rows) =
      dropDupFirstAux seen rows := by
  induction rows with
  | nil => intro seen; rfl
  | cons r rs ih =>
    intro seen
    by_cases hmem : r.videoID ∈ seen
    · simp [dropDupFirstAux, hmem, ih]
    · simp [dropDupFirstAux, hmem, ih]

/-- C4: consolidating a store whose rows carry the Video IDs A, A, B
retains exactly the first A row and the B row, and consolidation is
idempotent on every store. -/
theorem c4_consolidation :
    (∀ (r1 r2 r3 : VideoRecord), r2.videoID = r1.videoID →
        r3.videoID ≠ r1.videoID →
        deduplicate_dataframe [r1, r2, r3] = [r1, r3]) ∧
    (∀ rows : List VideoRecord,
        deduplicate_dataframe (deduplicate_dataframe rows) =
          deduplicate_dataframe rows) := by
  constructor
  · intro r1 r2 r3 h2 h3
    simp [deduplicate_dataframe, dropDupFirstAux, h2, h3]
  · intro rows
    exact dropDupFirstAux_idem rows []

/-- Witness for C4 at a concrete A, A, B store. -/
theorem c4_consolidation_witness :
    ((sampleRec "A").videoID = (sampleRec "A").videoID ∧
      (sampleRec "B").videoID ≠ (sampleRec "A").videoID) ∧
    deduplicate_dataframe [sampleRec "A", sampleRec "A", sampleRec "B"] =
      [sampleRec "A", sampleRec "B"] :=
  ⟨⟨rfl, by decide⟩,
    c4_consolidation.1 (sampleRec "A") (sampleRec "A") (sampleRec "B")
      rfl (by decide)⟩

/-! ### Incremental batch fetch -/

/-- A batch whose three attempts all fail yields no records after two
inter-attempt sleeps. -/
theorem fetchBatchLoop_allFail (att : Nat → Option (List VideoRecord))
    (h0 : att 0 = none) (h1 : att 1 = none) (h2 : att 2 = none) :
    Vdata.fetchBatchLoop att 3 0 = ([], 2) := by
  simp [Vdata.fetchBatchLoop, h0, h1, h2]

/-- The retry loop consults only the attempts inside its budget. -/
theorem fetchBatchLoop_congr (att att' : Nat → Option (List VideoRecord)) :
    ∀ (r a : Nat), (∀ i, i < r → att (a + i) = att' (a + i)) →
      Vdata.fetchBatchLoop att r a = Vdata.fetchBatchLoop att' r a := by
  intro r
  induction r with
  | zero => intro a _; rfl
  | succ r ih =>
    intro a hag
    have h0 : att a = att' a := by simpa using hag 0 (by omega)
    simp only [Vdata.fetchBatchLoop]
    rw [h0]
    cases att' a with
    | some items => rfl
    | none =>
      have hrec := ih (a + 1) (fun i hi => by
        have h2 := hag (i + 1) (by omega)
        rw [show a + (i + 1) = a + 1 + i by omega] at h2
        exact h2)
      rw [hrec]

/-- Dropping elements that contribute an empty list does not change a
flattened map. -/
theorem flatten_map_filter {α : Type} (f : α → List VideoRecord)
    (p : α → Bool) :
    ∀ l : List α, (∀ x ∈ l, p x = false → f x = []) →
      ((l.filter p).map f).flatten = (l.map f).flatten := by
  intro l
  induction l with
  | nil => intro _; rfl
  | cons x xs ih =>
    intro hl
    have hxs := fun y hy => hl y (List.mem_cons_of_mem _ hy)
    by_cases hx : p x = true
    · simp [List.filter_cons, hx, ih hxs]
    · have hx' : p x = false := by simpa using hx
      have hnil : f x = [] := hl x (List.mem_cons_self _ _) hx'
      simp [List.filter_cons, hx', hnil, ih hxs]

/-- C5: a failing batch is retried up to 3 attempts with a sleep
between consecutive attempts (two sleeps when all three fail); the
loop never looks past its 3-attempt budget; and a batch whose budget
is exhausted contributes no records while every other batch's
contribution is computed exactly as if the failing batch were absent,
so the run continues. -/
theorem c5_batch_retry :
    (∀ att : Nat → Option (List VideoRecord),
        att 0 = none → att 1 = none → att 2 = none →
        Vdata.fetchBatchLoop att 3 0 = ([], 2)) ∧
    (∀ att att' : Nat → Option (List VideoRecord),
        (∀ i, i < 3 → att i = att' i) →
        Vdata.fetchBatchLoop att 3 0 = Vdata.fetchBatchLoop att' 3 0) ∧
    (∀ (oracle : Nat → Nat → Option (List VideoRecord))
        (ids : List String) (i : Nat),
        (∀ j, j < 3 → oracle i j = none) →
        Vdata.get_video_metadata oracle ids =
          ((((chunks50 ids).enum).filter (fun p => p.1 != i)).map
            (fun p => (Vdata.fetchBatchLoop (oracle p.1) 3 0).1)).flatten) := by
  refine ⟨fetchBatchLoop_allFail, ?_, ?_⟩
  · intro att att' hag
    exact fetchBatchLoop_congr att att' 3 0 (by simpa using hag)
  · intro oracle ids i hfail
    unfold Vdata.get_video_metadata
    refine (flatten_map_filter _ _ _ ?_).symm
    intro x _ hfalse
    have hx : x.1 = i := by simpa using hfalse
    rw [hx, fetchBatchLoop_allFail (oracle i) (hfail 0 (by omega))
      (hfail 1 (by omega)) (hfail 2 (by omega))]

/-- Witness for C5: a 51-identifier input producing two batches, the
first of which always fails while the second succeeds with no
items. -/
theorem c5_batch_retry_witness :
    Vdata.fetchBatchLoop (fun _ => none) 3 0 = ([], 2) ∧
    Vdata.fetchBatchLoop (fun _ => none) 3 0 =
      Vdata.fetchBatchLoop (fun a => if a < 5 then none else some []) 3 0 ∧
    Vdata.get_video_metadata
        (fun b _ => if b = 0 then none else some [sampleRec "z"])
        (List.replicate 51 "v") =
      (((chunks50 (List.replicate 51 "v")).enum.filter
          (fun p => p.1 != 0)).map
        (fun p =>
          (Vdata.fetchBatchLoop
            ((fun (b _ : Nat) =>
              if b = 0 then none else some [sampleRec "z"]) p.1) 3 0).1)).flatten :=
  ⟨c5_batch_retry.1 (fun _ => none) rfl rfl rfl,
   c5_batch_retry.2.1 (fun _ => none)
     (fun a => if a < 5 then none else some []) (by decide),
   c5_batch_retry.2.2 (fun b _ => if b = 0 then none else some [sampleRec "z"])
     (List.replicate 51 "v") 0 (by simp)⟩

/-! ### Known-identifier filtering -/

/-- Members of a batch produced by chunking are members of the
chunked list. -/
theorem mem_of_mem_chunks50 {α : Type} :
    ∀ (l : List α) (b : List α), b ∈ chunks50 l → ∀ v ∈ b, v ∈ l := by
  intro l
  induction l using chunks50.induct with
  | case1 => intro b hb; simp [chunks50] at hb
  | case2 a l ih =>
    intro b hb v hv
    simp only [chunks50, List.mem_cons] at hb
    rcases hb with hb | hb
    · subst hb; exact List.take_subset _ _ hv
    · exact List.drop_subset _ _ (ih b hb v hv)

/-- C6: every identifier inside any batch sent to the detail-fetch
call of vdata.py is absent from the known-ID index built from the
persisted stores, and every identifier surviving Step 2 of
process_urls in YouTubeMetadataExtractor.py is absent from the
existing-ID set. -/
theorem c6_known_ids_never_refetched :
    (∀ (files : List (List VideoRecord)) (ids : List String)
        (batch : List String) (v : String),
        batch ∈ chunks50 (Vdata.check_existing_video_ids files ids) →
        v ∈ batch → v ∉ (files.flatten).map VideoRecord.videoID) ∧
    (∀ (allIds existing : List String) (v : String),
        v ∈ YTME.subtract_existing allIds existing → v ∉ existing) := by
  constructor
  · intro files ids batch v hb hv
    have hmem : v ∈ Vdata.check_existing_video_ids files ids :=
      mem_of_mem_chunks50 _ batch hb v hv
    unfold Vdata.check_existing_video_ids at hmem
    simp only [List.mem_filter, decide_eq_true_eq] at hmem
    exact hmem.2
  · intro allIds existing v hv
    unfold YTME.subtract_existing at hv
    simp only [List.mem_filter, decide_eq_true_eq] at hv
    exact hv.2

/-- Witness for C6: a store already holding A never has A re-batched,
and Step 2 keeps only identifiers outside the existing set. -/
theorem c6_known_ids_never_refetched_witness :
    ((["B"] ∈
        chunks50 (Vdata.check_existing_video_ids [[sampleRec "A"]]
          ["A", "B"]) ∧
      "B" ∈ (["B"] : List String)) ∧
      "B" ∉ (([[sampleRec "A"]] : List (List VideoRecord)).flatten).map
        VideoRecord.videoID) ∧
    (("x" ∈ YTME.subtract_existing ["x", "y"] ["y"]) ∧
      "x" ∉ (["y"] : List String)) := by
  have hce : Vdata.check_existing_video_ids [[sampleRec "A"]] ["A", "B"] =
      ["B"] := by decide
  have hchunk : ["B"] ∈
      chunks50 (Vdata.check_existing_video_ids [[sampleRec "A"]]
        ["A", "B"]) := by
    rw [hce]
    simp [chunks50]
  exact ⟨⟨⟨hchunk, by decide⟩,
    c6_known_ids_never_refetched.1 [[sampleRec "A"]] ["A", "B"] ["B"] "B"
      hchunk (by decide)⟩,
   ⟨by decide,
    c6_known_ids_never_refetched.2 ["x", "y"] ["y"] "x" (by decide)⟩⟩

/-! ### Absent metadata store -/

/-- C10: when the persisted metadata store is absent, the known-ID
index is empty, membership tests against it all fail, and no
candidate identifier is filtered out by Step 2 of process_urls, so a
first run treats every candidate as new; reading the absent store
returns the empty set instead of failing. -/
theorem c10_absent_store :
    YTME.get_existing_video_ids none = [] ∧
    (∀ v : String, (YTME.get_existing_video_ids none).contains v = false) ∧
    (∀ (ids : List String) (v : String), v ∈ ids →
        v ∈ YTME.subtract_existing ids (YTME.get_existing_video_ids none)) := by
  refine ⟨rfl, fun v => rfl, ?_⟩
  intro ids v hv
  unfold YTME.subtract_existing
  simp [YTME.get_existing_video_ids, List.mem_filter, List.mem_dedup, hv]

/-- Witness for C10: on a first run both candidates survive the
filter. -/
theorem c10_absent_store_witness :
    ("a" ∈ (["a", "b"] : List String)) ∧
    "a" ∈ YTME.subtract_existing ["a", "b"]
      (YTME.get_existing_video_ids none) :=
  ⟨by decide, c10_absent_store.2.2 ["a", "b"] "a" (by decide)⟩
